import Mathlib

/-!
Verification of the neuronlabs/server-jsonapi operation pipeline.

The development shallowly embeds the parts of the Go source that the
verified statements are about:

* the recursive fieldset/include resolver `parseFieldSetAndIncludes`;
* the relationship reconciliation performed by the insert-, delete- and
  update-relationship HTTP handlers, embedded as trace-producing
  functions over an environment of collaborator outcomes (codec,
  storage, hooks, transactions are external collaborators, so their
  results are inputs of the embedding);
* the single-resource GET handler's scope validation;
* `DefaultHandler.HandleDelete`.

Go machine details that matter are made explicit: Go `map` is embedded
as an association list with insert-overwrite semantics (iteration order
of `range` over a map is unspecified in Go; the embedding fixes the
association-list order, and no verified statement depends on the order),
and slice `append` to a local copy of a slice header does not change the
original slice value.
-/

namespace ServerJsonapi

/-- `mapping.FieldKind` of a struct field (the cases the resolver and
handlers distinguish). -/
inductive FieldKind where
  | primary
  | attribute
  | foreignKey
  deriving DecidableEq, Repr

/-- `mapping.RelationshipKind`: `RelBelongsTo`, `RelHasOne`, `RelHasMany`. -/
inductive RelKind where
  | belongsTo
  | hasOne
  | hasMany
  deriving DecidableEq, Repr

/-- `mapping.StructField`.  Identity (Go pointer identity) is modelled by
structural equality, with `fid` as the distinguishing tag.  A relation
field carries its relationship's kind, its foreign-key field (meaningful
for belongs-to) and the primary-key field of the related model structure
(`Relationship().RelatedModelStruct().Primary()`), which is all the
resolver and the relationship handlers read from the related model. -/
inductive StructField where
  | simple (fid : Nat) (kind : FieldKind)
  | relation (fid : Nat) (single : Bool) (relKind : RelKind)
      (foreignKey : StructField) (relatedPrimary : StructField)
  deriving DecidableEq, Repr

namespace StructField

/-- `field.Kind()` is one of the two relationship kinds. -/
def isRelation : StructField → Bool
  | .simple _ _ => false
  | .relation _ _ _ _ _ => true

/-- `field.Kind() == mapping.KindRelationshipSingle`. -/
def isSingle : StructField → Bool
  | .simple _ _ => false
  | .relation _ s _ _ _ => s

/-- `field.Relationship().Kind()`; junk on non-relation fields, which the
source never queries. -/
def relKind : StructField → RelKind
  | .simple _ _ => RelKind.hasMany
  | .relation _ _ rk _ _ => rk

/-- `field.Relationship().ForeignKey()`; junk on non-relation fields. -/
def fk : StructField → StructField
  | .simple n k => .simple n k
  | .relation _ _ _ f _ => f

/-- `field.Relationship().RelatedModelStruct().Primary()`; junk on
non-relation fields. -/
def relPrimary : StructField → StructField
  | .simple n k => .simple n k
  | .relation _ _ _ _ p => p

end StructField

/-- `query.IncludedRelation`: a relation field, a nested fieldset for the
related model, and nested sub-includes. -/
inductive IncludedRelation where
  | mk (structField : StructField) (fieldset : List StructField)
      (includedRelations : List IncludedRelation)

namespace IncludedRelation

def structField : IncludedRelation → StructField
  | .mk sf _ _ => sf

def fieldset : IncludedRelation → List StructField
  | .mk _ fs _ => fs

def includedRelations : IncludedRelation → List IncludedRelation
  | .mk _ _ incs => incs

lemma sizeOf_includedRelations_lt (si : IncludedRelation) :
    sizeOf si.includedRelations < sizeOf si := by
  cases si with
  | mk sf fs incs => simp [includedRelations]

end IncludedRelation

/-- The fields loop of `parseFieldSetAndIncludes` (the `for _, field :=
range fieldSet` loop).  `includes` is the *input* include list, which the
loop consults for the already-included check; `acc` is the pair
(resultFieldset, resultIncludes) built so far.

The source's branch for an already-included relation reads

  `fs := includes[i].Fieldset; fs = append(fs, relatedPrimary)`

which appends to a discarded local copy of the slice header; it changes
neither the input includes nor the result, so the branch only sets
`alreadyIncluded`. -/
def parseFieldStep (includes : List IncludedRelation)
    (acc : List StructField × List IncludedRelation) (field : StructField) :
    List StructField × List IncludedRelation :=
  if field.isRelation then
    let fs1 :=
      if field.relKind = RelKind.belongsTo ∧ field.fk ∉ acc.1 then
        acc.1 ++ [field.fk]
      else acc.1
    if includes.any (fun si => si.structField = field) then
      (fs1, acc.2)
    else
      (fs1, acc.2 ++ [IncludedRelation.mk field [field.relPrimary] []])
  else
    (acc.1 ++ [field], acc.2)

def parseFields (includes : List IncludedRelation) (fieldSet : List StructField)
    (acc : List StructField × List IncludedRelation) :
    List StructField × List IncludedRelation :=
  fieldSet.foldl (parseFieldStep includes) acc

mutual

/-- `parseFieldSetAndIncludes` from the source: resolves a json:api
fieldset and include tree into a neuron fieldset and include list.  Of
the model structure argument only `mStruct.Primary()` is read, so the
embedding takes that primary field directly; the recursive calls pass
`subInclude.StructField.Relationship().RelatedModelStruct().Primary()`. -/
def parseFieldSetAndIncludes (primary : StructField) (fieldSet : List StructField)
    (includes : List IncludedRelation) :
    List StructField × List IncludedRelation :=
  parseFields includes fieldSet ([primary], parseIncludesList includes)
termination_by (sizeOf includes, 1)
decreasing_by
  exact Prod.Lex.right _ (by omega)

/-- The sub-include loop of `parseFieldSetAndIncludes`: each input include
entry is replaced by its recursively resolved form. -/
def parseIncludesList : List IncludedRelation → List IncludedRelation
  | [] => []
  | si :: rest =>
    let sub := parseFieldSetAndIncludes si.structField.relPrimary si.fieldset
        si.includedRelations
    IncludedRelation.mk si.structField sub.1 sub.2 :: parseIncludesList rest
termination_by l => (sizeOf l, 0)
decreasing_by
  · exact Prod.Lex.left _ _
      (by
        have := IncludedRelation.sizeOf_includedRelations_lt si
        simp only [List.cons.sizeOf_spec]
        omega)
  · exact Prod.Lex.left _ _ (by simp only [List.cons.sizeOf_spec]; omega)

end

/-! ### Structure of the resolver output -/

lemma parseFields_nil (incs : List IncludedRelation) (acc) :
    parseFields incs [] acc = acc := rfl

lemma parseFields_cons (incs : List IncludedRelation) (f : StructField) (fs : List StructField)
    (acc) : parseFields incs (f :: fs) acc = parseFields incs fs (parseFieldStep incs acc f) :=
  rfl

lemma parseFieldStep_fst (incs : List IncludedRelation) (acc) (f : StructField) :
    (parseFieldStep incs acc f).1 =
      if f.isRelation then
        (if f.relKind = RelKind.belongsTo ∧ f.fk ∉ acc.1 then acc.1 ++ [f.fk] else acc.1)
      else acc.1 ++ [f] := by
  unfold parseFieldStep
  split
  · dsimp only
    split <;> rfl
  · rfl

lemma parseFieldStep_snd (incs : List IncludedRelation) (acc) (f : StructField) :
    (parseFieldStep incs acc f).2 =
      if f.isRelation then
        (if incs.any (fun si => si.structField = f) then acc.2
         else acc.2 ++ [IncludedRelation.mk f [f.relPrimary] []])
      else acc.2 := by
  unfold parseFieldStep
  split
  · dsimp only
    split <;> rfl
  · rfl

lemma parseFieldStep_isPrefix (incs : List IncludedRelation) (acc) (f : StructField) :
    acc.1 <+: (parseFieldStep incs acc f).1 ∧ acc.2 <+: (parseFieldStep incs acc f).2 := by
  rw [parseFieldStep_fst, parseFieldStep_snd]
  constructor
  · split
    · split
      · exact List.prefix_append _ _
      · exact List.prefix_rfl
    · exact List.prefix_append _ _
  · split
    · split
      · exact List.prefix_rfl
      · exact List.prefix_append _ _
    · exact List.prefix_rfl

lemma parseFields_isPrefix (incs : List IncludedRelation) :
    ∀ (fs : List StructField) (acc),
      acc.1 <+: (parseFields incs fs acc).1 ∧ acc.2 <+: (parseFields incs fs acc).2
  | [], acc => ⟨List.prefix_rfl, List.prefix_rfl⟩
  | f :: fs, acc => by
    have h1 := parseFieldStep_isPrefix incs acc f
    have h2 := parseFields_isPrefix incs fs (parseFieldStep incs acc f)
    rw [parseFields_cons]
    exact ⟨h1.1.trans h2.1, h1.2.trans h2.2⟩

/-- The resolver always places the model's primary key in the resulting
fieldset. -/
lemma primary_mem_parse (p : StructField) (fs : List StructField)
    (incs : List IncludedRelation) : p ∈ (parseFieldSetAndIncludes p fs incs).1 := by
  rw [parseFieldSetAndIncludes]
  exact (parseFields_isPrefix incs fs ([p], parseIncludesList incs)).1.subset
    (List.mem_singleton.mpr rfl)

/-- Every recursively resolved input include entry survives into the
resolver's output include list. -/
lemma parseIncludesList_mem_parse (p : StructField) (fs : List StructField)
    (incs : List IncludedRelation) (x : IncludedRelation) (h : x ∈ parseIncludesList incs) :
    x ∈ (parseFieldSetAndIncludes p fs incs).2 := by
  rw [parseFieldSetAndIncludes]
  exact (parseFields_isPrefix incs fs ([p], parseIncludesList incs)).2.subset h

/-- The resolved form of an input include entry is a member of
`parseIncludesList`. -/
lemma mem_parseIncludesList (incs : List IncludedRelation) (si : IncludedRelation) :
    si ∈ incs →
    IncludedRelation.mk si.structField
        (parseFieldSetAndIncludes si.structField.relPrimary si.fieldset
          si.includedRelations).1
        (parseFieldSetAndIncludes si.structField.relPrimary si.fieldset
          si.includedRelations).2
      ∈ parseIncludesList incs := by
  induction incs with
  | nil => intro h; cases h
  | cons a rest ih =>
    intro h
    rw [parseIncludesList]
    cases h with
    | head => exact List.mem_cons_self _ _
    | tail _ hmem => exact List.mem_cons_of_mem _ (ih hmem)

/-- Appending a field different from `p` and appending a foreign key only
when absent both preserve "the fieldset counts `p` exactly once". -/
lemma parseFieldStep_count_primary (incs : List IncludedRelation) (acc) (f p : StructField)
    (hf : f ≠ p) (h : acc.1.count p = 1) : (parseFieldStep incs acc f).1.count p = 1 := by
  have hp : p ∈ acc.1 := List.count_pos_iff.mp (by omega)
  rw [parseFieldStep_fst]
  split
  · split
    case isTrue hcond =>
      have hfk : p ∉ [f.fk] := by
        intro hmem
        rw [List.mem_singleton] at hmem
        exact hcond.2 (hmem ▸ hp)
      rw [List.count_append, List.count_eq_zero.mpr hfk]
      omega
    case isFalse _ => exact h
  · have hfp : p ∉ [f] := by
      intro hmem
      rw [List.mem_singleton] at hmem
      exact hf hmem.symm
    rw [List.count_append, List.count_eq_zero.mpr hfp]
    omega

lemma parseFields_count_primary (incs : List IncludedRelation) (p : StructField) :
    ∀ (fs : List StructField) (acc), (∀ f ∈ fs, f ≠ p) → acc.1.count p = 1 →
      (parseFields incs fs acc).1.count p = 1
  | [], acc, _, h => h
  | f :: fs, acc, hfs, h => by
    rw [parseFields_cons]
    exact parseFields_count_primary incs p fs _ (fun g hg => hfs g (List.mem_cons_of_mem _ hg))
      (parseFieldStep_count_primary incs acc f p (hfs f (List.mem_cons_self _ _)) h)

/-! ## Go map and reconciliation loops

`map[interface{}]int` keyed by `GetPrimaryKeyHashableValue()` is embedded
as an association list from primary-key value (`Nat`) to index, with
insert-overwrite semantics.  Models are identified by their primary-key
value, which is all the reconciliation reads from them. -/

/-- `_, ok := m[k]` -/
def mapHasKey (m : List (Nat × Nat)) (k : Nat) : Bool :=
  m.any (fun kv => kv.1 == k)

/-- `m[k] = v` -/
def mapInsert (m : List (Nat × Nat)) (k v : Nat) : List (Nat × Nat) :=
  if mapHasKey m k then m.map (fun kv => if kv.1 = k then (k, v) else kv)
  else m ++ [(k, v)]

/-- `delete(m, k)` -/
def mapErase (m : List (Nat × Nat)) (k : Nat) : List (Nat × Nat) :=
  m.filter (fun kv => kv.1 != k)

/-- `for i, current := range relationModels { idMap[current.pk] = i }` -/
def buildIdMapAux : Nat → List Nat → List (Nat × Nat) → List (Nat × Nat)
  | _, [], m => m
  | i, pk :: rest, m => buildIdMapAux (i + 1) rest (mapInsert m pk i)

def buildIdMap (relationModels : List Nat) : List (Nat × Nat) :=
  buildIdMapAux 0 relationModels []

/-- The delete-relationship reconciliation loop over `payload.Data`: a
submitted member found in the map clears `nothingToDelete` and is erased;
an absent one is skipped.  The accumulator is `(idMap, nothingToDelete)`. -/
def deleteLoopGo (acc : List (Nat × Nat) × Bool) : List Nat → List (Nat × Nat) × Bool
  | [] => acc
  | pk :: rest =>
    if mapHasKey acc.1 pk then deleteLoopGo (mapErase acc.1 pk, false) rest
    else deleteLoopGo acc rest

/-- `for _, index := range idMap { newRelations = append(newRelations,
relationModels[index]) }`.  Go iterates the map in unspecified order; the
embedding uses the association-list order.  No verified statement depends
on this order. -/
def collectByIndex (relationModels : List Nat) (m : List (Nat × Nat)) : List Nat :=
  m.map (fun kv => relationModels.getD kv.2 0)

/-- The insert-relationship reconciliation loop: `relationsToSet` starts
as the current members and each submitted member whose primary key is not
in the map is appended. -/
def insertLoopGo (m : List (Nat × Nat)) (acc : List Nat) : List Nat → List Nat
  | [] => acc
  | pk :: rest =>
    if mapHasKey m pk then insertLoopGo m acc rest
    else insertLoopGo m (acc ++ [pk]) rest

/-! ### Facts about the embedded Go map -/

lemma mapHasKey_eq_mem (m : List (Nat × Nat)) (k : Nat) :
    mapHasKey m k = true ↔ k ∈ m.map Prod.fst := by
  simp only [mapHasKey, List.any_eq_true, beq_iff_eq, List.mem_map]

lemma map_fst_mapInsert_of_has (m : List (Nat × Nat)) (k v : Nat)
    (h : mapHasKey m k = true) :
    (mapInsert m k v).map Prod.fst = m.map Prod.fst := by
  unfold mapInsert
  rw [if_pos h, List.map_map]
  refine List.map_congr_left fun kv _ => ?_
  dsimp [Function.comp]
  split
  case isTrue he => exact he.symm
  case isFalse _ => rfl

lemma mem_map_fst_mapInsert (m : List (Nat × Nat)) (k v kx : Nat) :
    kx ∈ (mapInsert m k v).map Prod.fst ↔ (kx ∈ m.map Prod.fst ∨ kx = k) := by
  by_cases h : mapHasKey m k = true
  · rw [map_fst_mapInsert_of_has m k v h]
    have hk : k ∈ m.map Prod.fst := (mapHasKey_eq_mem m k).mp h
    constructor
    · exact Or.inl
    · rintro (hx | rfl)
      · exact hx
      · exact hk
  · unfold mapInsert
    rw [if_neg h]
    simp

lemma mapHasKey_buildIdMapAux (k : Nat) :
    ∀ (l : List Nat) (i : Nat) (m : List (Nat × Nat)),
      (mapHasKey (buildIdMapAux i l m) k = true ↔ (mapHasKey m k = true ∨ k ∈ l))
  | [], i, m => by simp [buildIdMapAux]
  | pk :: rest, i, m => by
    rw [buildIdMapAux, mapHasKey_buildIdMapAux k rest (i + 1) (mapInsert m pk i),
      mapHasKey_eq_mem, mem_map_fst_mapInsert, ← mapHasKey_eq_mem]
    simp only [List.mem_cons]
    tauto

/-- A key is in the source's `idMap` exactly when it is the primary key
of one of the current relation members. -/
lemma mapHasKey_buildIdMap (l : List Nat) (k : Nat) :
    mapHasKey (buildIdMap l) k = true ↔ k ∈ l := by
  rw [buildIdMap, mapHasKey_buildIdMapAux]
  simp [mapHasKey]

/-- Insert reconciliation: when every submitted primary key is already a
key of the map, nothing is appended to `relationsToSet`. -/
lemma insertLoopGo_of_all_mem (m : List (Nat × Nat)) :
    ∀ (data : List Nat) (acc : List Nat), (∀ pk ∈ data, mapHasKey m pk = true) →
      insertLoopGo m acc data = acc
  | [], _, _ => rfl
  | pk :: rest, acc, h => by
    rw [insertLoopGo, if_pos (h pk (List.mem_cons_self _ _))]
    exact insertLoopGo_of_all_mem m rest acc fun q hq => h q (List.mem_cons_of_mem _ hq)

/-- Delete reconciliation: when no submitted primary key is a key of the
map, `nothingToDelete` stays `true` and the map is untouched. -/
lemma deleteLoopGo_of_none_mem (m : List (Nat × Nat)) :
    ∀ data : List Nat, (∀ pk ∈ data, mapHasKey m pk = false) →
      deleteLoopGo (m, true) data = (m, true)
  | [], _ => rfl
  | pk :: rest, h => by
    rw [deleteLoopGo]
    have hpk : ¬ mapHasKey (m, true).1 pk = true := by
      simp [h pk (List.mem_cons_self _ _)]
    rw [if_neg hpk]
    exact deleteLoopGo_of_none_mem m rest fun q hq => h q (List.mem_cons_of_mem _ hq)

/-! ## The relationship-endpoint handlers

Each handler is embedded as a function from an environment of
collaborator outcomes to the list of observable events it performs, in
program order.  Collaborators (codec, database, hooks) are external, so
their results are environment fields. -/

/-- Observable actions of one handler run, in program order. -/
inductive Event where
  /-- `a.marshalErrors(rw, status, err)`; `status = 0` means "derived from
  the error by the codec". -/
  | errorResp (status : Nat)
  /-- `rw.WriteHeader(http.StatusNoContent)` -/
  | noContent
  /-- `a.marshalPayload(rw, result, http.StatusOK)` -/
  | okResp
  /-- the query scope handed to the handler chain: its `FieldSets` and its
  included relations as (relation field, nested fieldset) pairs. -/
  | buildScope (fieldSets : List (List StructField))
      (includes : List (StructField × List StructField))
  /-- `database.Begin` succeeded -/
  | txBegin
  /-- `a.getHandleChain(ctx, tx, s)` was invoked and returned ok/err -/
  | getChain (ok : Bool)
  /-- the registered before-hook was invoked -/
  | beforeHook (ok : Bool)
  /-- `handler.HandleSetRelations(ctx, tx, model, pks, relation)` -/
  | setRelations (pks : List Nat) (ok : Bool)
  /-- the registered after-hook was invoked -/
  | afterHook (ok : Bool)
  /-- `tx.Commit()` was attempted -/
  | txCommit (ok : Bool)
  /-- `tx.Rollback()` was attempted (by the deferred handler) -/
  | txRollback
  deriving DecidableEq, Repr

/-- Environment of one relationship-endpoint request: the url/codec
inputs and the outcome of every external collaborator call the handler
may make.  `data` is the unmarshaled `payload.Data` as primary-key
values, `current` the relation's current members as primary-key values
(after the source's nil filtering). -/
structure RelEnv where
  idPresent : Bool
  idParseOk : Bool
  pkZero : Bool
  unmarshalOk : Bool
  data : List Nat
  payloadFieldSets : List (List StructField)
  includeOk : Bool
  hasHandler : Bool
  hasCtxHook : Bool
  ctxOk : Bool
  beginOk : Bool
  getChainOk : Bool
  hasBefore : Bool
  beforeOk : Bool
  relationerOk : Bool
  getRelModelsOk : Bool
  current : List Nat
  setRelOk : Bool
  hasAfter : Bool
  afterOk : Bool
  commitOk : Bool
  acceptJsonapi : Bool
  resultNil : Bool
  resultDataAndMeta : Bool

/-- The final response of a successful relationship mutation:
`!hasJsonapiMimeType || result == nil || (result.Data != nil &&
result.Meta != nil)` yields 204, otherwise the payload is marshaled. -/
def responseEvents (e : RelEnv) : List Event :=
  if e.acceptJsonapi = false ∨ e.resultNil = true ∨ e.resultDataAndMeta = true then
    [Event.noContent]
  else [Event.okResp]

/-- `tx.Commit()` and the response; a commit error is answered with a 500
(the deferred rollback does not fire because the transaction is done). -/
def commitAndRespond (e : RelEnv) : List Event :=
  if e.commitOk = false then [Event.txCommit false, Event.errorResp 500]
  else Event.txCommit true :: responseEvents e

/-- The after-hook stage shared by the three handlers: hook failure is
answered with an error and the deferred rollback fires. -/
def afterStage (e : RelEnv) : List Event :=
  if e.hasHandler = true ∧ e.hasAfter = true ∧ e.afterOk = false then
    [Event.afterHook false, Event.errorResp 0, Event.txRollback]
  else
    (if e.hasHandler = true ∧ e.hasAfter = true then [Event.afterHook true] else []) ++
      commitAndRespond e

/-- The context-hook, `database.Begin`, `getHandleChain` and before-hook
sequence written identically in the three relationship handlers; `tail`
is the handler-specific remainder that runs after a successful before
stage. -/
def relChainCore (e : RelEnv) (tail : List Event) : List Event :=
  if e.hasHandler = true ∧ e.hasCtxHook = true ∧ e.ctxOk = false then [Event.errorResp 0]
  else if e.beginOk = false then [Event.errorResp 0]
  else
    Event.txBegin ::
    if e.getChainOk = false then [Event.getChain false, Event.errorResp 0, Event.txRollback]
    else
      Event.getChain true ::
      if e.hasHandler = true ∧ e.hasBefore = true ∧ e.beforeOk = false then
        [Event.beforeHook false, Event.errorResp 0, Event.txRollback]
      else
        (if e.hasHandler = true ∧ e.hasBefore = true then [Event.beforeHook true] else []) ++
          tail

/-- The remainder of `handleDeleteRelationship` after the before stage:
relation-models fetch, delete reconciliation, no-op commit or
set-relations, after hook, commit, response.  On a relation-models
failure the source's `:=` binding shadows the outer `err`, so the
deferred rollback sees `err == nil` and does NOT roll back — hence no
`txRollback` on the first two error paths. -/
def deleteRest (e : RelEnv) : List Event :=
  if e.relationerOk = false then [Event.errorResp 500]
  else if e.getRelModelsOk = false then [Event.errorResp 0]
  else if (deleteLoopGo (buildIdMap e.current, true) e.data).2 = true then
    [Event.txCommit e.commitOk, Event.noContent]
  else
    Event.setRelations
      (collectByIndex e.current (deleteLoopGo (buildIdMap e.current, true) e.data).1)
      e.setRelOk ::
    if e.setRelOk = false then [Event.errorResp 0, Event.txRollback]
    else afterStage e

/-- The remainder of `handleInsertRelationship` after the before stage.
Its relation-models stage assigns the outer `err`, so its failures do
roll back. -/
def insertRest (e : RelEnv) : List Event :=
  if e.relationerOk = false then [Event.errorResp 500, Event.txRollback]
  else if e.getRelModelsOk = false then [Event.errorResp 0, Event.txRollback]
  else if (insertLoopGo (buildIdMap e.current) e.current e.data).length =
      e.current.length then
    [Event.txCommit e.commitOk, Event.noContent]
  else
    Event.setRelations (insertLoopGo (buildIdMap e.current) e.current e.data) e.setRelOk ::
    if e.setRelOk = false then [Event.errorResp 0, Event.txRollback]
    else afterStage e

/-- The remainder of `handleUpdateRelationship` after the before stage: a
full replace passes `payload.Data` straight to set-relations. -/
def updateRest (e : RelEnv) : List Event :=
  Event.setRelations e.data e.setRelOk ::
  if e.setRelOk = false then [Event.errorResp 0, Event.txRollback]
  else afterStage e

/-- `handleDeleteRelationship` from the source, for root model primary
key `p` and relation field `rel`.

The relation-models stage reflects a peculiarity of the source: in both
`switch` branches the result of `GetRelationModels`/`GetRelationModel`
is bound with `:=`, which declares a fresh `err` shadowing the function's
outer `err`; the deferred rollback tests the outer `err`, so on a failure
of that stage (and on the `MultiRelationer`/`SingleRelationer` cast
failure, where no `err` is assigned at all) the transaction is left
without rollback. -/
def handleDeleteRelationship (p rel : StructField) (e : RelEnv) : List Event :=
  if e.idPresent = false then [Event.errorResp 0]
  else if e.idParseOk = false then [Event.errorResp 0]
  else if e.pkZero = true then [Event.errorResp 0]
  else if e.unmarshalOk = false then [Event.errorResp 0]
  else if e.data.any (fun pk => pk == 0) then [Event.errorResp 0]
  else if e.data = [] then [Event.noContent]
  else if e.includeOk = false then [Event.errorResp 500]
  else
    Event.buildScope [[p]] [(rel, [rel.relPrimary])] :: relChainCore e (deleteRest e)

/-- `handleInsertRelationship` from the source.  Unlike the delete
handler, its root scope takes `payload.FieldSets` (the fieldsets the
codec unmarshaled for the *related* model's payload), not the root
primary-key fieldset; and its relation-models stage assigns the outer
`err`, so its failures do roll back. -/
def handleInsertRelationship (p rel : StructField) (e : RelEnv) : List Event :=
  if e.idPresent = false then [Event.errorResp 0]
  else if e.idParseOk = false then [Event.errorResp 0]
  else if e.pkZero = true then [Event.errorResp 0]
  else if e.unmarshalOk = false then [Event.errorResp 0]
  else if rel.isSingle = true ∧ 1 < e.data.length then [Event.errorResp 0]
  else if e.data.any (fun pk => pk == 0) then [Event.errorResp 0]
  else if e.data = [] then [Event.noContent]
  else if e.includeOk = false then [Event.errorResp 500]
  else
    Event.buildScope e.payloadFieldSets [(rel, [rel.relPrimary])] ::
      relChainCore e (insertRest e)

/-- `handleUpdateRelationship` from the source: a full replace.  There is
no to-one cardinality check, no empty-payload short cut and no
relation-models stage; `payload.Data` is passed to `HandleSetRelations`
as is. -/
def handleUpdateRelationship (p rel : StructField) (e : RelEnv) : List Event :=
  if e.idPresent = false then [Event.errorResp 0]
  else if e.idParseOk = false then [Event.errorResp 0]
  else if e.pkZero = true then [Event.errorResp 0]
  else if e.unmarshalOk = false then [Event.errorResp 0]
  else if e.data.any (fun pk => pk == 0) then [Event.errorResp 0]
  else if e.includeOk = false then [Event.errorResp 500]
  else
    Event.buildScope [[p]] [(rel, [rel.relPrimary])] :: relChainCore e (updateRest e)

/-! ## The single-resource GET handler -/

/-- Environment of one single-resource GET request.  `sortingOrder` and
`filters` are the entries the codec's parameter parser placed on the
scope, abstracted to counters' worth of opaque entries; `paginationSet`
is `s.Pagination != nil`. -/
structure GetEnv where
  idPresent : Bool
  idParseOk : Bool
  pkZero : Bool
  parserOk : Bool
  parseOk : Bool
  sortingOrder : List Nat
  paginationSet : Bool
  filters : List Nat
  fieldSets : List (List StructField)
  includes : List IncludedRelation
  attributesAndRelations : List StructField
  hasHandler : Bool
  hasCtxHook : Bool
  ctxOk : Bool
  getChainOk : Bool

/-- `handleGet` from the source: url checks, parameter parsing, the
rejection of sort/pagination/filter for a singular resource, the
fieldset/include resolution, and the handler chain. -/
def handleGet (p : StructField) (e : GetEnv) : List Event :=
  if e.idPresent = false then [Event.errorResp 0]
  else if e.idParseOk = false then [Event.errorResp 0]
  else if e.pkZero = true then [Event.errorResp 0]
  else if e.parserOk = false then [Event.errorResp 500]
  else if e.parseOk = false then [Event.errorResp 0]
  else if e.sortingOrder ≠ [] then [Event.errorResp 400]
  else if e.paginationSet = true then [Event.errorResp 400]
  else if e.filters ≠ [] then [Event.errorResp 400]
  else
    Event.buildScope
      [(parseFieldSetAndIncludes p
          (if e.fieldSets = [] then e.attributesAndRelations else e.fieldSets.headD [])
          e.includes).1]
      ((parseFieldSetAndIncludes p
          (if e.fieldSets = [] then e.attributesAndRelations else e.fieldSets.headD [])
          e.includes).2.map fun i => (i.structField, i.fieldset)) ::
    if e.hasHandler = true ∧ e.hasCtxHook = true ∧ e.ctxOk = false then [Event.errorResp 0]
    else
      Event.getChain e.getChainOk ::
      if e.getChainOk = false then [Event.errorResp 0] else [Event.okResp]

/-! ## The default delete handler -/

/-- Errors visible to `DefaultHandler.HandleDelete`. -/
inductive DbErr where
  | noResult
  | internal
  | other (n : Nat)
  deriving DecidableEq, Repr

namespace DefaultHandler

/-- `DefaultHandler.HandleDelete`: runs the delete query and turns a
zero-row deletion into `query.ErrNoResult`.  The argument is the result
of `qdb.DeleteQuery(ctx, q)` (the storage collaborator); on success the
source returns `(nil, nil)`. -/
def HandleDelete (deleteQueryResult : Except DbErr Nat) : Except DbErr (Option Unit) :=
  match deleteQueryResult with
  | .error e => .error e
  | .ok deleted => if deleted = 0 then .error DbErr.noResult else .ok none

end DefaultHandler

/-! ## Concrete instances used by witnesses and counterexamples -/

/-- a root model's primary key field -/
def pF : StructField := StructField.simple 0 FieldKind.primary

/-- a plain attribute field of the root model -/
def aF : StructField := StructField.simple 1 FieldKind.attribute

/-- the related model's primary key field -/
def rpF : StructField := StructField.simple 10 FieldKind.primary

/-- a foreign key field -/
def fkF : StructField := StructField.simple 2 FieldKind.foreignKey

/-- a has-many relation field of the root model -/
def relManyF : StructField := StructField.relation 3 false RelKind.hasMany fkF rpF

/-- a has-one (to-one) relation field of the root model -/
def relOneF : StructField := StructField.relation 4 true RelKind.hasOne fkF rpF

/-- A request environment in which every collaborator succeeds, no custom
model handler is registered, the client submits member `1` and the
relation currently holds member `2`. -/
def envOk : RelEnv where
  idPresent := true
  idParseOk := true
  pkZero := false
  unmarshalOk := true
  data := [1]
  payloadFieldSets := [[rpF]]
  includeOk := true
  hasHandler := false
  hasCtxHook := false
  ctxOk := true
  beginOk := true
  getChainOk := true
  hasBefore := false
  beforeOk := true
  relationerOk := true
  getRelModelsOk := true
  current := [2]
  setRelOk := true
  hasAfter := false
  afterOk := true
  commitOk := true
  acceptJsonapi := false
  resultNil := false
  resultDataAndMeta := false

/-! ## Claims -/

/-- C1: for every requested field that is a relation field already
present among the requested includes, the include entry resolved by
`parseFieldSetAndIncludes` for that relation has a nested fieldset that
contains the related model's primary key (the recursion unconditionally
unions it in, so the operation is idempotent). -/
theorem c1_included_relation_fieldset_contains_related_primary
    (p field : StructField) (fieldSet : List StructField)
    (includes : List IncludedRelation) (si : IncludedRelation)
    (hmem : field ∈ fieldSet) (hrel : field.isRelation = true)
    (hsi : si ∈ includes) (heq : si.structField = field) :
    ∃ e ∈ (parseFieldSetAndIncludes p fieldSet includes).2,
      e.structField = field ∧ field.relPrimary ∈ e.fieldset := by
  subst heq
  refine ⟨IncludedRelation.mk si.structField
      (parseFieldSetAndIncludes si.structField.relPrimary si.fieldset
        si.includedRelations).1
      (parseFieldSetAndIncludes si.structField.relPrimary si.fieldset
        si.includedRelations).2,
    parseIncludesList_mem_parse _ _ _ _ (mem_parseIncludesList includes si hsi), ?_, ?_⟩
  · simp [IncludedRelation.structField]
  · simpa [IncludedRelation.fieldset] using
      primary_mem_parse si.structField.relPrimary si.fieldset si.includedRelations

/-- Witness for C1 at a concrete input: the relation `relManyF` is both
requested and included with an empty nested fieldset; the resolved
include entry contains the related primary key. -/
theorem c1_witness :
    relManyF ∈ [relManyF] ∧ relManyF.isRelation = true ∧
      IncludedRelation.mk relManyF [] [] ∈ [IncludedRelation.mk relManyF [] []] ∧
      (IncludedRelation.mk relManyF [] []).structField = relManyF ∧
      ∃ e ∈ (parseFieldSetAndIncludes pF [relManyF]
          [IncludedRelation.mk relManyF [] []]).2,
        e.structField = relManyF ∧ relManyF.relPrimary ∈ e.fieldset :=
  ⟨List.mem_singleton.mpr rfl, rfl, List.mem_singleton.mpr rfl, rfl,
    c1_included_relation_fieldset_contains_related_primary pF relManyF [relManyF]
      [IncludedRelation.mk relManyF [] []] (IncludedRelation.mk relManyF [] [])
      (List.mem_singleton.mpr rfl) rfl (List.mem_singleton.mpr rfl) rfl⟩

/-- C4 (amended): for every model primary key, requested field list and
include tree, if the requested field list does not itself contain the
primary key field, the fieldset produced by `parseFieldSetAndIncludes`
contains the primary key exactly once — present even though never
requested, and never duplicated.  (The unamended claim fails when the
primary key is itself requested; see the counterexample.) -/
theorem c4_primary_exactly_once_when_not_requested
    (p : StructField) (fieldSet : List StructField) (includes : List IncludedRelation)
    (hp : p ∉ fieldSet) :
    (parseFieldSetAndIncludes p fieldSet includes).1.count p = 1 := by
  rw [parseFieldSetAndIncludes]
  refine parseFields_count_primary includes p fieldSet _ (fun f hf heq => hp (heq ▸ hf)) ?_
  simp

/-- Counterexample to C4 as stated: a requested field list containing the
primary key field itself makes the resolver emit the primary key twice
(the seeded copy plus the requested copy, appended by the
default/attribute branch without deduplication). -/
theorem c4_counterexample_requested_primary_duplicated :
    (parseFieldSetAndIncludes pF [pF] []).1.count pF = 2 := by
  simp [parseFieldSetAndIncludes, parseIncludesList, parseFields, parseFieldStep, pF,
    StructField.isRelation, List.count_cons]

/-- Witness for C4 at a concrete input: a field list of one plain
attribute, which does not contain the primary key. -/
theorem c4_witness :
    pF ∉ [aF] ∧ (parseFieldSetAndIncludes pF [aF] []).1.count pF = 1 :=
  ⟨by decide, c4_primary_exactly_once_when_not_requested pF [aF] [] (by decide)⟩

lemma buildScope_not_mem_afterStage (fss : List (List StructField))
    (incs : List (StructField × List StructField)) (e : RelEnv) :
    Event.buildScope fss incs ∉ afterStage e := by
  unfold afterStage commitAndRespond responseEvents
  split_ifs <;> simp

lemma buildScope_not_mem_deleteRest (fss : List (List StructField))
    (incs : List (StructField × List StructField)) (e : RelEnv) :
    Event.buildScope fss incs ∉ deleteRest e := by
  have h := buildScope_not_mem_afterStage fss incs e
  unfold deleteRest
  split_ifs <;> simp_all

lemma buildScope_not_mem_insertRest (fss : List (List StructField))
    (incs : List (StructField × List StructField)) (e : RelEnv) :
    Event.buildScope fss incs ∉ insertRest e := by
  have h := buildScope_not_mem_afterStage fss incs e
  unfold insertRest
  split_ifs <;> simp_all

lemma buildScope_not_mem_updateRest (fss : List (List StructField))
    (incs : List (StructField × List StructField)) (e : RelEnv) :
    Event.buildScope fss incs ∉ updateRest e := by
  have h := buildScope_not_mem_afterStage fss incs e
  unfold updateRest
  split_ifs <;> simp_all

lemma buildScope_not_mem_relChainCore (fss : List (List StructField))
    (incs : List (StructField × List StructField)) (e : RelEnv) (tail : List Event)
    (h : Event.buildScope fss incs ∉ tail) :
    Event.buildScope fss incs ∉ relChainCore e tail := by
  unfold relChainCore
  split_ifs <;> simp_all

/-- C2 (amended): the delete- and update-relationship handlers scope the
root resource query to the root primary-key fieldset only, with one
include of the target relation restricted to the related primary key;
the insert-relationship handler uses the same include but takes the
*unmarshaled payload's* fieldsets as the root scope fieldsets instead of
the primary-key-only fieldset.  (The unamended claim fails on the insert
handler; see the counterexample.) -/
theorem c2_relationship_scope_fieldsets (p rel : StructField) (e : RelEnv)
    (fss : List (List StructField)) (incs : List (StructField × List StructField)) :
    (Event.buildScope fss incs ∈ handleDeleteRelationship p rel e →
        fss = [[p]] ∧ incs = [(rel, [rel.relPrimary])]) ∧
    (Event.buildScope fss incs ∈ handleUpdateRelationship p rel e →
        fss = [[p]] ∧ incs = [(rel, [rel.relPrimary])]) ∧
    (Event.buildScope fss incs ∈ handleInsertRelationship p rel e →
        fss = e.payloadFieldSets ∧ incs = [(rel, [rel.relPrimary])]) := by
  refine ⟨?_, ?_, ?_⟩ <;> intro hmem
  · unfold handleDeleteRelationship at hmem
    split_ifs at hmem <;> simp only [List.mem_cons, List.mem_singleton] at hmem <;>
      first
        | (rcases hmem with h | h
           · simpa using h
           · exact absurd h (buildScope_not_mem_relChainCore _ _ _ _
               (buildScope_not_mem_deleteRest _ _ _)))
        | exact absurd hmem (by simp)
  · unfold handleUpdateRelationship at hmem
    split_ifs at hmem <;> simp only [List.mem_cons, List.mem_singleton] at hmem <;>
      first
        | (rcases hmem with h | h
           · simpa using h
           · exact absurd h (buildScope_not_mem_relChainCore _ _ _ _
               (buildScope_not_mem_updateRest _ _ _)))
        | exact absurd hmem (by simp)
  · unfold handleInsertRelationship at hmem
    split_ifs at hmem <;> simp only [List.mem_cons, List.mem_singleton] at hmem <;>
      first
        | (rcases hmem with h | h
           · simpa using h
           · exact absurd h (buildScope_not_mem_relChainCore _ _ _ _
               (buildScope_not_mem_insertRest _ _ _)))
        | exact absurd hmem (by simp)

/-- Witness for C2 at a concrete input: the delete handler on the
all-success environment does build a scope, and its fieldsets are the
primary-key-only fieldset with the relation include. -/
theorem c2_witness :
    Event.buildScope [[pF]] [(relManyF, [relManyF.relPrimary])]
        ∈ handleDeleteRelationship pF relManyF envOk ∧
      ([[pF]] = [[pF]] ∧
        [(relManyF, [relManyF.relPrimary])] = [(relManyF, [relManyF.relPrimary])]) := by
  have hm : Event.buildScope [[pF]] [(relManyF, [relManyF.relPrimary])]
      ∈ handleDeleteRelationship pF relManyF envOk := by
    simp [handleDeleteRelationship, relChainCore, deleteRest, envOk]
  exact ⟨hm, (c2_relationship_scope_fieldsets pF relManyF envOk [[pF]]
    [(relManyF, [relManyF.relPrimary])]).1 hm⟩

/-- Counterexample to C2 as stated: the insert-relationship handler's
root scope takes the payload's fieldsets (`s.FieldSets =
payload.FieldSets`), here a plain attribute fieldset, which is not the
root primary-key-only fieldset. -/
theorem c2_counterexample_insert_scope_not_primary_only :
    Event.buildScope [[aF]] [(relManyF, [relManyF.relPrimary])]
        ∈ handleInsertRelationship pF relManyF
          { envOk with payloadFieldSets := [[aF]] } ∧
      [[aF]] ≠ [[pF]] := by
  constructor
  · simp [handleInsertRelationship, relChainCore, insertRest, envOk]
  · decide

/-- C3 (amended): the insert-relationship handler rejects a payload with
more than one member for a to-one relation with a client error
immediately after unmarshaling, before the scope is built, a transaction
begun, any hook run or any storage operation issued.  The
update-relationship handler performs no such check (see the
counterexample). -/
theorem c3_insert_rejects_multiple_members_for_to_one
    (p rel : StructField) (e : RelEnv) (hrel : rel.isSingle = true)
    (h1 : e.idPresent = true) (h2 : e.idParseOk = true) (h3 : e.pkZero = false)
    (h4 : e.unmarshalOk = true) (h5 : 1 < e.data.length) :
    handleInsertRelationship p rel e = [Event.errorResp 0] := by
  unfold handleInsertRelationship
  simp [h1, h2, h3, h4, hrel, h5]

/-- Witness for C3 at a concrete input: two members submitted for the
to-one relation `relOneF`. -/
theorem c3_witness :
    relOneF.isSingle = true ∧ 1 < ([1, 2] : List Nat).length ∧
      handleInsertRelationship pF relOneF { envOk with data := [1, 2] } =
        [Event.errorResp 0] :=
  ⟨rfl, by decide,
    c3_insert_rejects_multiple_members_for_to_one pF relOneF
      { envOk with data := [1, 2] } rfl rfl rfl rfl rfl (by decide)⟩

/-- Counterexample to C3 as stated: the update-relationship handler, on a
to-one relation with two submitted members and every collaborator
succeeding, performs the set-relations storage write with both members
and reports success — no client error is produced before (or after) the
storage operation. -/
theorem c3_counterexample_update_to_one_two_members_hits_storage :
    handleUpdateRelationship pF relOneF { envOk with data := [1, 2] } =
      [Event.buildScope [[pF]] [(relOneF, [relOneF.relPrimary])], Event.txBegin,
        Event.getChain true, Event.setRelations [1, 2] true, Event.txCommit true,
        Event.noContent] ∧
      Event.setRelations [1, 2] true
        ∈ handleUpdateRelationship pF relOneF { envOk with data := [1, 2] } := by
  constructor <;>
    simp [handleUpdateRelationship, relChainCore, updateRest, afterStage,
      commitAndRespond, responseEvents, envOk]

/-- C5: an insert-relationship request in which every submitted member's
primary key already occurs among the relation's current members is a
no-op: the handler answers 204 No Content, never calls set-relations
(leaving the member set unchanged) and produces no error. -/
theorem c5_insert_existing_members_is_noop (p rel : StructField) (e : RelEnv)
    (h1 : e.idPresent = true) (h2 : e.idParseOk = true) (h3 : e.pkZero = false)
    (h4 : e.unmarshalOk = true)
    (h5 : ¬(rel.isSingle = true ∧ 1 < e.data.length))
    (h6 : ∀ pk ∈ e.data, pk ≠ 0)
    (h7 : e.includeOk = true)
    (h8 : e.ctxOk = true)
    (h9 : e.beginOk = true) (h10 : e.getChainOk = true)
    (h11 : e.beforeOk = true)
    (h12 : e.relationerOk = true) (h13 : e.getRelModelsOk = true)
    (hall : ∀ pk ∈ e.data, pk ∈ e.current) :
    Event.noContent ∈ handleInsertRelationship p rel e ∧
      (∀ pks b, Event.setRelations pks b ∉ handleInsertRelationship p rel e) ∧
      (∀ s, Event.errorResp s ∉ handleInsertRelationship p rel e) := by
  have htoset : insertLoopGo (buildIdMap e.current) e.current e.data = e.current :=
    insertLoopGo_of_all_mem _ _ _
      (fun pk hpk => (mapHasKey_buildIdMap _ _).mpr (hall pk hpk))
  have hz : (e.data.any fun pk => pk == 0) = false := by
    cases hcase : e.data.any fun pk => pk == 0
    · rfl
    · exfalso
      obtain ⟨pk, hpk, hpk0⟩ := List.any_eq_true.mp hcase
      exact h6 pk hpk (by simpa using hpk0)
  by_cases hdata : e.data = []
  · simp [handleInsertRelationship, h1, h2, h3, h4, hdata]
  · by_cases hb : e.hasHandler = true ∧ e.hasBefore = true <;>
      simp [handleInsertRelationship, relChainCore, insertRest, h1, h2, h3, h4, h5,
        hz, hdata, h7, h8, h9, h10, h11, h12, h13, htoset, hb]

/-- Witness for C5 at a concrete input: the single submitted member `2`
is already the relation's current member. -/
theorem c5_witness :
    Event.noContent ∈ handleInsertRelationship pF relManyF { envOk with data := [2] } ∧
      (∀ pks b, Event.setRelations pks b
        ∉ handleInsertRelationship pF relManyF { envOk with data := [2] }) ∧
      (∀ s, Event.errorResp s
        ∉ handleInsertRelationship pF relManyF { envOk with data := [2] }) :=
  c5_insert_existing_members_is_noop pF relManyF { envOk with data := [2] }
    rfl rfl rfl rfl (by decide) (by decide) rfl rfl rfl rfl rfl rfl rfl (by decide)

/-- C6: a delete-relationship request in which no submitted member's
primary key matches any current member of the relation is a no-op: the
handler answers 204 No Content, never calls set-relations (leaving the
member set unchanged) and produces no error. -/
theorem c6_delete_absent_members_is_noop (p rel : StructField) (e : RelEnv)
    (h1 : e.idPresent = true) (h2 : e.idParseOk = true) (h3 : e.pkZero = false)
    (h4 : e.unmarshalOk = true)
    (h6 : ∀ pk ∈ e.data, pk ≠ 0)
    (h7 : e.includeOk = true)
    (h8 : e.ctxOk = true)
    (h9 : e.beginOk = true) (h10 : e.getChainOk = true)
    (h11 : e.beforeOk = true)
    (h12 : e.relationerOk = true) (h13 : e.getRelModelsOk = true)
    (hnone : ∀ pk ∈ e.data, pk ∉ e.current) :
    Event.noContent ∈ handleDeleteRelationship p rel e ∧
      (∀ pks b, Event.setRelations pks b ∉ handleDeleteRelationship p rel e) ∧
      (∀ s, Event.errorResp s ∉ handleDeleteRelationship p rel e) := by
  have hloop : deleteLoopGo (buildIdMap e.current, true) e.data = (buildIdMap e.current, true) :=
    deleteLoopGo_of_none_mem _ _ fun pk hpk => by
      cases hcase : mapHasKey (buildIdMap e.current) pk
      · rfl
      · exact absurd ((mapHasKey_buildIdMap _ _).mp hcase) (hnone pk hpk)
  have hz : (e.data.any fun pk => pk == 0) = false := by
    cases hcase : e.data.any fun pk => pk == 0
    · rfl
    · exfalso
      obtain ⟨pk, hpk, hpk0⟩ := List.any_eq_true.mp hcase
      exact h6 pk hpk (by simpa using hpk0)
  by_cases hdata : e.data = []
  · simp [handleDeleteRelationship, h1, h2, h3, h4, hdata]
  · by_cases hb : e.hasHandler = true ∧ e.hasBefore = true <;>
      simp [handleDeleteRelationship, relChainCore, deleteRest, h1, h2, h3, h4, hz,
        hdata, h7, h8, h9, h10, h11, h12, h13, hloop, hb]

/-- Witness for C6 at a concrete input: the submitted member `5` is not
among the relation's current member `2`. -/
theorem c6_witness :
    Event.noContent ∈ handleDeleteRelationship pF relManyF { envOk with data := [5] } ∧
      (∀ pks b, Event.setRelations pks b
        ∉ handleDeleteRelationship pF relManyF { envOk with data := [5] }) ∧
      (∀ s, Event.errorResp s
        ∉ handleDeleteRelationship pF relManyF { envOk with data := [5] }) :=
  c6_delete_absent_members_is_noop pF relManyF { envOk with data := [5] }
    rfl rfl rfl rfl (by decide) rfl rfl rfl rfl rfl rfl rfl (by decide)

/-- C7 (refutation of the claim on the delete handler — code bug): when
the relation-models stage of `handleDeleteRelationship` fails after the
transaction began, the error is returned to the client but the
transaction is neither rolled back nor committed, because the source
binds that stage's error with `:=`, shadowing the `err` the deferred
rollback inspects.  The insert handler on the same environment does roll
back, which shows the intended behaviour. -/
theorem c7_delete_relation_models_error_returns_without_rollback :
    handleDeleteRelationship pF relManyF { envOk with getRelModelsOk := false } =
        [Event.buildScope [[pF]] [(relManyF, [relManyF.relPrimary])], Event.txBegin,
          Event.getChain true, Event.errorResp 0] ∧
      Event.txRollback
        ∉ handleDeleteRelationship pF relManyF { envOk with getRelModelsOk := false } ∧
      Event.txCommit true
        ∉ handleDeleteRelationship pF relManyF { envOk with getRelModelsOk := false } ∧
      Event.txCommit false
        ∉ handleDeleteRelationship pF relManyF { envOk with getRelModelsOk := false } ∧
      handleInsertRelationship pF relManyF { envOk with getRelModelsOk := false } =
        [Event.buildScope [[rpF]] [(relManyF, [relManyF.relPrimary])], Event.txBegin,
          Event.getChain true, Event.errorResp 0, Event.txRollback] := by
  refine ⟨?_, ?_, ?_, ?_, ?_⟩ <;>
    simp [handleDeleteRelationship, handleInsertRelationship, relChainCore, deleteRest,
      insertRest, envOk]

/-- C8: the single-resource GET handler rejects any request whose parsed
parameters contain a sorting, pagination or filtering entry with a 400
client error, before the scope is resolved and before any handler or
storage call. -/
theorem c8_get_rejects_sort_pagination_filter (p : StructField) (e : GetEnv)
    (h1 : e.idPresent = true) (h2 : e.idParseOk = true) (h3 : e.pkZero = false)
    (h4 : e.parserOk = true) (h5 : e.parseOk = true)
    (h6 : e.sortingOrder ≠ [] ∨ e.paginationSet = true ∨ e.filters ≠ []) :
    handleGet p e = [Event.errorResp 400] := by
  unfold handleGet
  by_cases hs : e.sortingOrder = [] <;> by_cases hpg : e.paginationSet = true <;>
      by_cases hf : e.filters = [] <;>
    simp_all

/-- A GET environment whose query carries one sort parameter and is
otherwise well-formed. -/
def genvSorted : GetEnv where
  idPresent := true
  idParseOk := true
  pkZero := false
  parserOk := true
  parseOk := true
  sortingOrder := [1]
  paginationSet := false
  filters := []
  fieldSets := []
  includes := []
  attributesAndRelations := [aF]
  hasHandler := false
  hasCtxHook := false
  ctxOk := true
  getChainOk := true

/-- Witness for C8 at a concrete input: a sorted single-resource GET. -/
theorem c8_witness : handleGet pF genvSorted = [Event.errorResp 400] :=
  c8_get_rejects_sort_pagination_filter pF genvSorted rfl rfl rfl rfl rfl
    (Or.inl (by decide))

/-- C10: an insert- or delete-relationship request whose unmarshaled
payload has zero members (vacuously passing the zero-primary-key check)
is answered 204 No Content immediately: the whole trace is the single
no-content response — no scope, no transaction, no hook, no storage
operation. -/
theorem c10_empty_payload_immediate_no_content (p rel : StructField) (e : RelEnv)
    (h1 : e.idPresent = true) (h2 : e.idParseOk = true) (h3 : e.pkZero = false)
    (h4 : e.unmarshalOk = true) (hdata : e.data = []) :
    handleDeleteRelationship p rel e = [Event.noContent] ∧
      handleInsertRelationship p rel e = [Event.noContent] := by
  constructor <;>
    simp [handleDeleteRelationship, handleInsertRelationship, h1, h2, h3, h4, hdata]

/-- Witness for C10 at a concrete input: an empty payload. -/
theorem c10_witness :
    handleDeleteRelationship pF relManyF { envOk with data := [] } = [Event.noContent] ∧
      handleInsertRelationship pF relManyF { envOk with data := [] } = [Event.noContent] :=
  c10_empty_payload_immediate_no_content pF relManyF { envOk with data := [] }
    rfl rfl rfl rfl rfl

/-- C9: `DefaultHandler.HandleDelete` turns a storage-level delete that
matched zero rows into a no-result error, not a successful empty
result. -/
theorem c9_delete_zero_rows_reports_no_result :
    DefaultHandler.HandleDelete (Except.ok 0) = Except.error DbErr.noResult := rfl

end ServerJsonapi
